import Mathlib

/-!
Verification of the bloom-be conversation/message core.

Shallow embedding of the conversation store, message store and the
completion-orchestration flow of the bloom-be backend
(`pkg/handler/completions.go`, `pkg/handler/chat.go`,
`pkg/handler/message.go`, `pkg/app/db.go`).

Modelling conventions:
* The relational store is a `Store` value: a list of conversation rows and a
  list of message rows, plus the `SERIAL` counter for `messages.id`.
  Conversation ids are `Int` (the `conversations.id` column is `SERIAL`,
  i.e. an integer; string ids arriving over HTTP are coerced by the
  database). Message timestamps are `String` (the `messages.timestamp`
  column is `VARCHAR(255)`), so `ORDER BY timestamp ASC` compares
  lexicographically.
* `database/sql` semantics: `QueryRow(...).Scan` on a query that produces
  zero rows yields `sql.ErrNoRows`; this matters for
  `INSERT ... ON CONFLICT DO NOTHING RETURNING id`, which produces zero
  rows when the conflict fires.
* Fallible steps return `Except String`; injected fault flags model a
  database operation failing for an external reason, so that the
  error-handling paths of the Go code are reachable in the model.
-/

namespace BloomBe

/-- A row of the `conversations` table
(`id, model, conversation_name, user_id, created_at`). -/
structure Conversation where
  id : Int
  model : String
  conversationName : String
  userID : String
  createdAt : Int
deriving Repr, DecidableEq

/-- A row of the `messages` table
(`id, conversation_id, role, content, timestamp`); `timestamp` is a
`VARCHAR(255)` column, hence `String`. -/
structure Message where
  id : Int
  conversationID : Int
  role : String
  content : String
  timestamp : String
deriving Repr, DecidableEq

/-- The relational store: both tables plus the `SERIAL` sequence backing
`messages.id`. -/
structure Store where
  conversations : List Conversation
  messages : List Message
  nextMsgId : Int
deriving Repr, DecidableEq

/-- The `SELECT EXISTS(SELECT 1 FROM conversations WHERE id = $1)`. -/
def convExists (s : Store) (cid : Int) : Bool :=
  s.conversations.any (fun c => c.id = cid)

/-- Append a conversation row (a successful `INSERT INTO conversations`). -/
def insertConv (s : Store) (c : Conversation) : Store :=
  { s with conversations := s.conversations ++ [c] }

/-- The `ensureConversation` (completions.go): checks existence by primary key;
if absent, runs `INSERT ... ON CONFLICT(id) DO NOTHING RETURNING id` and
scans the result.  The `interfere` argument models a row inserted by a
concurrent request between the existence check and the insert (`none` for a
sequential run).  When the conflict fires, `RETURNING id` produces zero rows
and `QueryRow.Scan` yields `sql.ErrNoRows`, which the Go code wraps and
returns as an error; the `newConversationID == ""` fallback in the code is
unreachable because `Scan` errors first. -/
def ensureConversation (s : Store) (interfere : Option Conversation)
    (cid : Int) (model userID : String) (now : Int) :
    Except String (Int × Store) :=
  if convExists s cid then
    .ok (cid, s)
  else
    let s1 := match interfere with
      | none => s
      | some c => insertConv s c
    if convExists s1 cid then
      .error "could not create conversation: sql: no rows in result set"
    else
      .ok (cid, insertConv s1 ⟨cid, model, "New Conversation", userID, now⟩)

end BloomBe

namespace BloomBe

/-- C1 helper: the store after `ensureConversation` inserts the fresh row. -/
def ensuredStore (s : Store) (cid : Int) (model userID : String)
    (now : Int) : Store :=
  insertConv s ⟨cid, model, "New Conversation", userID, now⟩

/-- Fault-injection flags for one transactional delete: each flag makes the
corresponding database call fail for an external reason (connection loss,
etc.), so the Go error paths are reachable. -/
structure TxFaults where
  failBegin : Bool
  failDelMsgs : Bool
  failDelConvs : Bool
  failRowsAffected : Bool
  failCommit : Bool
deriving Repr, DecidableEq

/-- The fault-free run. -/
def noFaults : TxFaults := ⟨false, false, false, false, false⟩

/-- The store after a committed delete of conversation `cid` and its
messages. -/
def deletedByIdStore (s : Store) (cid : Int) : Store :=
  { s with
    conversations := s.conversations.filter (fun c => ¬ c.id = cid),
    messages := s.messages.filter (fun m => ¬ m.conversationID = cid) }

/-- The `doDeleteChatByID` (chat.go): inside one transaction, delete the
messages of `cid`, delete the conversation row, check `RowsAffected`; the
deferred closure commits on success and rolls back when `err` is set or a
panic was recovered.  `tx.Commit` failing is special: the Go function has no
named return values, so the `err = tx.Commit()` assignment in the deferred
closure is lost and the already-built success response is returned while
the database discards the uncommitted transaction. -/
def doDeleteChatByID (s : Store) (f : TxFaults) (cid : Int) :
    Except String String × Store :=
  if f.failBegin then (.error "could not begin transaction", s)
  else if f.failDelMsgs then (.error "could not delete messages", s)
  else if f.failDelConvs then (.error "could not delete conversation", s)
  else if f.failRowsAffected then (.error "could not check rows affected", s)
  else
    let rowsAffected :=
      (s.conversations.filter (fun c => c.id = cid)).length
    if rowsAffected = 0 then
      (.error ("conversation with id " ++ toString cid ++ " not found"), s)
    else if f.failCommit then
      (.ok ("Conversation with ID " ++ toString cid ++
        " deleted successfully"), s)
    else
      (.ok ("Conversation with ID " ++ toString cid ++
        " deleted successfully"), deletedByIdStore s cid)

/-- Ids of the conversations owned by `uid`
(`SELECT id FROM conversations WHERE user_id = $1`). -/
def ownedConvIds (s : Store) (uid : String) : List Int :=
  (s.conversations.filter (fun c => c.userID = uid)).map (fun c => c.id)

/-- The store after a committed delete of all conversations owned by `uid`,
and of their messages. -/
def deletedByUserStore (s : Store) (uid : String) : Store :=
  { s with
    conversations := s.conversations.filter (fun c => ¬ c.userID = uid),
    messages := s.messages.filter
      (fun m => ¬ (ownedConvIds s uid).contains m.conversationID) }

/-- The `doDeleteAllChatByUserID` (chat.go): same transactional shape as
`doDeleteChatByID`, deleting the messages of every conversation owned by
`uid` (via the `IN (SELECT ...)` subquery) and then the conversation rows;
`RowsAffected` counts the deleted conversations. -/
def doDeleteAllChatByUserID (s : Store) (f : TxFaults) (uid : String) :
    Except String String × Store :=
  if f.failBegin then (.error "could not begin transaction", s)
  else if f.failDelMsgs then (.error "could not delete messages", s)
  else if f.failDelConvs then (.error "could not delete conversations", s)
  else if f.failRowsAffected then (.error "could not check rows affected", s)
  else
    let rowsAffected :=
      (s.conversations.filter (fun c => c.userID = uid)).length
    if rowsAffected = 0 then
      (.error ("no conversations found for user_id " ++ uid), s)
    else if f.failCommit then
      (.ok ("Deleted " ++ toString rowsAffected ++
        " conversations and their messages for user ID " ++ uid), s)
    else
      (.ok ("Deleted " ++ toString rowsAffected ++
        " conversations and their messages for user ID " ++ uid),
        deletedByUserStore s uid)

/-- Code-point-wise lexicographic comparison of character lists: the model
of the database collation ordering the `VARCHAR` `timestamp` column. -/
def charListLe : List Char → List Char → Bool
  | [], _ => true
  | _ :: _, [] => false
  | a :: as, b :: bs =>
    if a.val.toNat < b.val.toNat then true
    else if b.val.toNat < a.val.toNat then false
    else charListLe as bs

/-- Lexicographic `≤` on strings. -/
def strLe (a b : String) : Bool := charListLe a.data b.data

theorem charListLe_total :
    ∀ xs ys, charListLe xs ys = true ∨ charListLe ys xs = true := by
  intro xs
  induction xs with
  | nil => intro ys; left; rfl
  | cons a as ih =>
    intro ys
    cases ys with
    | nil => right; rfl
    | cons b bs =>
      by_cases h1 : a.val.toNat < b.val.toNat
      · left; simp [charListLe, h1]
      · by_cases h2 : b.val.toNat < a.val.toNat
        · right; simp [charListLe, h2]
        · rcases ih bs with h | h
          · left; simp [charListLe, h1, h2, h]
          · right; simp [charListLe, h1, h2, h]

theorem charListLe_trans :
    ∀ xs ys zs, charListLe xs ys = true → charListLe ys zs = true →
      charListLe xs zs = true := by
  intro xs
  induction xs with
  | nil => intro ys zs h1 h2; rfl
  | cons a as ih =>
    intro ys zs h1 h2
    cases ys with
    | nil => simp [charListLe] at h1
    | cons b bs =>
      cases zs with
      | nil => simp [charListLe] at h2
      | cons c cs =>
        simp only [charListLe] at h1 h2 ⊢
        rcases Nat.lt_trichotomy a.val.toNat b.val.toNat with hab | hab | hab
        · rcases Nat.lt_trichotomy b.val.toNat c.val.toNat with hbc | hbc | hbc
          · simp [lt_trans hab hbc]
          · simp [hbc ▸ hab]
          · simp [Nat.lt_asymm hbc, hbc] at h2
        · rcases Nat.lt_trichotomy b.val.toNat c.val.toNat with hbc | hbc | hbc
          · simp [hab ▸ hbc]
          · simp only [hab, lt_irrefl, if_false] at h1
            simp only [hbc, lt_irrefl, if_false] at h2
            simp only [hab.trans hbc, lt_irrefl, if_false]
            exact ih bs cs h1 h2
          · simp [Nat.lt_asymm hbc, hbc] at h2
        · simp [Nat.lt_asymm hab, hab] at h1

/-- Ordering of message rows used by `ORDER BY timestamp ASC`: the
`timestamp` column is `VARCHAR(255)`, compared lexicographically. -/
def msgLe (a b : Message) : Prop := strLe a.timestamp b.timestamp = true

instance : DecidableRel msgLe := fun a b =>
  inferInstanceAs (Decidable (strLe a.timestamp b.timestamp = true))

instance : IsTotal Message msgLe :=
  ⟨fun a b => charListLe_total a.timestamp.data b.timestamp.data⟩

instance : IsTrans Message msgLe :=
  ⟨fun _ _ _ hab hbc => charListLe_trans _ _ _ hab hbc⟩

/-- The `doGetAllMsgsByID` (message.go): `SELECT ... FROM messages WHERE
conversation_id = $1 ORDER BY timestamp ASC`.  `ORDER BY` is modelled as a
sort of the filtered rows. -/
def doGetAllMsgsByID (s : Store) (cid : Int) : List Message :=
  List.insertionSort msgLe
    (s.messages.filter (fun m => m.conversationID = cid))

/-- The `getOldMessages` (completions.go): same query restricted to the
`role`/`content` columns, in the same order. -/
def getOldMessages (s : Store) (cid : Int) : List (String × String) :=
  (doGetAllMsgsByID s cid).map (fun m => (m.role, m.content))

/-- The `setMessages` (completions.go): `INSERT INTO messages (conversation_id,
role, content, timestamp) VALUES ($1,$2,$3,$4)`; `messages.id` comes from
the `SERIAL` sequence, and the `int64` timestamp parameter is coerced to
the `VARCHAR` column. -/
def setMessages (s : Store) (cid : Int) (role content : String)
    (created : Int) : Store :=
  { s with
    messages := s.messages ++
      [⟨s.nextMsgId, cid, role, content, toString created⟩],
    nextMsgId := s.nextMsgId + 1 }

/-- The `Message` field of one element of the upstream `choices` array. -/
structure ChoiceMessage where
  role : String
  content : String
deriving Repr, DecidableEq

/-- The fields of the decoded upstream response body the orchestrator
reads: `created` and the `Message` of each element of `choices`. -/
structure AkashCompletionResponse where
  created : Int
  choices : List ChoiceMessage
deriving Repr, DecidableEq

/-- Outcome of one upstream HTTP round trip: transport-level failure
(`client.Do` or reading the body), JSON failure (`json.Indent` or
`json.Unmarshal`), or a decoded body. -/
inductive UpstreamOutcome where
  | transportFailure : UpstreamOutcome
  | decodeFailure : UpstreamOutcome
  | decoded : AkashCompletionResponse → UpstreamOutcome
deriving Repr, DecidableEq

/-- Environment of one `doCompletions` run: fault flags for the three
database writes and the outcomes of the two upstream calls. -/
structure CompletionsOracle where
  failUserWrite : Bool
  upstreamMain : UpstreamOutcome
  failAssistantWrite : Bool
  upstreamSummarize : UpstreamOutcome
  failNameWrite : Bool
deriving Repr, DecidableEq

/-- Observable side effects of a `doCompletions` run, in order. -/
inductive Event where
  | writeUser : Event
  | upstreamCall : Event
  | writeAssistant : Event
  | upstreamSummarizeCall : Event
  | nameWrite : Event
deriving Repr, DecidableEq

/-- The JSON body `doCompletions` returns on success
(`CompletionResponse` in completions.go). -/
structure CompletionResponse where
  success : Bool
  message : String
  content : String
  role : String
  conversationID : Int
  conversationName : String
  createdAt : Int
deriving Repr, DecidableEq

/-- Result of one `doCompletions` run; `panicked` models a Go runtime
panic (index out of range on `Choices[0]`), which is not an error return. -/
inductive RunResult where
  | ok : CompletionResponse → RunResult
  | failed : String → RunResult
  | panicked : String → RunResult
deriving Repr, DecidableEq

/-- The `insertName` (completions.go): `SELECT id` to check existence; if found,
`UPDATE conversations SET conversation_name = $1 WHERE id = $2`; if
`sql.ErrNoRows`, `INSERT INTO conversations (id, conversation_name)` —
the unspecified columns are NULL, modelled as `""`/`0`. -/
def insertName (s : Store) (cid : Int) (name : String) : Int × Store :=
  if convExists s cid then
    let updated := s.conversations.map
      (fun c => if c.id = cid then { c with conversationName := name }
                else c)
    (cid, { s with conversations := updated })
  else
    (cid, insertConv s ⟨cid, "", name, "", 0⟩)

/-- The `doCompletions` (completions.go): ensure the conversation exists, load
the history, append the user turn to the in-memory list and to the store,
call upstream, extract `Choices[0]` (a panic when `choices` is empty),
persist the reply, and when the in-memory list counted exactly 3 entries
after the append, make the extra summarization call and overwrite the
conversation name with its `Choices[0].Message.Content`.  Returns the
result, the final store, and the ordered trace of performed effects. -/
def doCompletions (s : Store) (o : CompletionsOracle)
    (role content uid : String) (cid : Int) (model : String) (now : Int) :
    RunResult × Store × List Event :=
  match ensureConversation s none cid model uid now with
  | .error e => (.failed e, s, [])
  | .ok (_, s1) =>
    let oldMsgs := getOldMessages s1 cid ++ [(role, content)]
    if o.failUserWrite then
      (.failed "Error inserting message into DB", s1, [])
    else
      let s2 := setMessages s1 cid role content now
      match o.upstreamMain with
      | .transportFailure =>
        (.failed "Error making API request", s2, [.writeUser, .upstreamCall])
      | .decodeFailure =>
        (.failed "Error unmarshaling JSON", s2, [.writeUser, .upstreamCall])
      | .decoded r =>
        match r.choices with
        | [] =>
          (.panicked "runtime error: index out of range", s2,
            [.writeUser, .upstreamCall])
        | ch :: _ =>
          if o.failAssistantWrite then
            (.failed "Error inserting completion message into DB", s2,
              [.writeUser, .upstreamCall])
          else
            let s3 := setMessages s2 cid ch.role ch.content r.created
            if oldMsgs.length = 3 then
              match o.upstreamSummarize with
              | .transportFailure =>
                (.failed "Error making API request", s3,
                  [.writeUser, .upstreamCall, .writeAssistant,
                    .upstreamSummarizeCall])
              | .decodeFailure =>
                (.failed "Error unmarshaling JSON", s3,
                  [.writeUser, .upstreamCall, .writeAssistant,
                    .upstreamSummarizeCall])
              | .decoded r2 =>
                match r2.choices with
                | [] =>
                  (.panicked "runtime error: index out of range", s3,
                    [.writeUser, .upstreamCall, .writeAssistant,
                      .upstreamSummarizeCall])
                | ch2 :: _ =>
                  if o.failNameWrite then
                    (.failed "Error insert name", s3,
                      [.writeUser, .upstreamCall, .writeAssistant,
                        .upstreamSummarizeCall])
                  else
                    (.ok ⟨true, "Successfully completed the request.",
                        ch.content, ch.role, cid, ch2.content, r.created⟩,
                      (insertName s3 cid ch2.content).2,
                      [.writeUser, .upstreamCall, .writeAssistant,
                        .upstreamSummarizeCall, .nameWrite])
            else
              (.ok ⟨true, "Successfully completed the request.",
                  ch.content, ch.role, cid, "", r.created⟩,
                s3, [.writeUser, .upstreamCall, .writeAssistant])

/-- The `conversation_name` of row `cid`, when present. -/
def convName (s : Store) (cid : Int) : Option String :=
  (s.conversations.find? (fun c => c.id = cid)).map
    (fun c => c.conversationName)

/-- Fold computing the largest id, starting from `acc`. -/
def maxIdFrom (acc : Int) : List Conversation → Int
  | [] => acc
  | c :: cs => maxIdFrom (max acc c.id) cs

/-- The `getMostRecentConversationID` (completions.go):
`SELECT id FROM conversations ORDER BY id DESC LIMIT 1`, i.e. the largest
stored id; `sql.ErrNoRows` (empty table) yields 0. -/
def getMostRecentConversationID (s : Store) : Int :=
  match s.conversations with
  | [] => 0
  | c :: cs => maxIdFrom c.id cs

/-- The `Completions` (completions.go, lines 106–115): when the request omits
`conversation_id`, synthesize `strconv.Itoa(mostRecent + 1)`; otherwise
keep the supplied one. -/
def resolveConversationID (s : Store) (reqCid : String) : String :=
  if reqCid = "" then toString (getMostRecentConversationID s + 1)
  else reqCid

end BloomBe

open BloomBe

/-- C1: For a conversation id not present in the store,
`ensureConversation` inserts exactly one row (the given model and owner,
default name "New Conversation"), leaves the messages table untouched, and
returns the id; calling it again with the same id performs no insert and
returns the same id. -/
theorem C1_ensureConversation_fresh_then_noop
    (s : Store) (cid : Int) (model userID : String) (now : Int)
    (h : convExists s cid = false) :
    ensureConversation s none cid model userID now =
      .ok (cid, ensuredStore s cid model userID now)
    ∧ (ensuredStore s cid model userID now).conversations =
        s.conversations ++ [⟨cid, model, "New Conversation", userID, now⟩]
    ∧ (ensuredStore s cid model userID now).messages = s.messages
    ∧ ∀ model2 userID2 now2,
        ensureConversation (ensuredStore s cid model userID now) none
            cid model2 userID2 now2 =
          .ok (cid, ensuredStore s cid model userID now) := by
  have hex : convExists (ensuredStore s cid model userID now) cid = true := by
    simp [ensuredStore, insertConv, convExists, List.any_append]
  refine ⟨?_, rfl, rfl, ?_⟩
  · simp [ensureConversation, ensuredStore, h]
  · intro model2 userID2 now2
    simp [ensureConversation, hex]

/-- C1 witness at a concrete store. -/
theorem C1_ensureConversation_fresh_then_noop_witness :
    ensureConversation ⟨[], [], 1⟩ none 1 "m" "u" 0 =
      .ok (1, ensuredStore ⟨[], [], 1⟩ 1 "m" "u" 0) :=
  (C1_ensureConversation_fresh_then_noop ⟨[], [], 1⟩ 1 "m" "u" 0
    (by decide)).1

/-- C10: For a conversation id already present, `ensureConversation`
performs no write at all: it returns the id with the store exactly
unchanged, whatever model, owner or clock value is supplied. -/
theorem C10_ensureConversation_existing_frame
    (s : Store) (cid : Int) (model userID : String) (now : Int)
    (h : convExists s cid = true) :
    ensureConversation s none cid model userID now = .ok (cid, s) := by
  simp [ensureConversation, h]

/-- C10 witness at a concrete store holding conversation 5 with a different
model and owner than the call supplies. -/
theorem C10_ensureConversation_existing_frame_witness :
    ensureConversation ⟨[⟨5, "modelA", "Old Name", "alice", 7⟩], [], 1⟩
        none 5 "modelB" "bob" 99 =
      .ok (5, ⟨[⟨5, "modelA", "Old Name", "alice", 7⟩], [], 1⟩) :=
  C10_ensureConversation_existing_frame
    ⟨[⟨5, "modelA", "Old Name", "alice", 7⟩], [], 1⟩ 5 "modelB" "bob" 99
    (by decide)

/-- C6: The code at the duplicate-key conflict: when the row appears
between the existence check and the insert, `ON CONFLICT DO NOTHING
RETURNING id` produces zero rows, `Scan` yields `sql.ErrNoRows`, and
`ensureConversation` returns an error — not the benign success with the
existing id that the claim (and the dead
`newConversationID == ""` branch) describe. -/
theorem C6_duplicate_conflict_errors :
    ensureConversation ⟨[], [], 1⟩ (some ⟨7, "m2", "New Conversation", "u2", 3⟩)
        7 "m1" "u1" 5 =
      .error "could not create conversation: sql: no rows in result set" := by
  rfl

/-- C2: For a conversation id present in the store, `doDeleteChatByID`
removes the conversation row and all of its messages atomically: under every
fault injection the post-state is either exactly the pre-state or exactly
the fully-deleted state (never a partial mix); every error outcome leaves
the store at its pre-operation state; and the fault-free run succeeds with
the fully-deleted state. -/
theorem C2_delete_chat_atomic
    (s : Store) (cid : Int)
    (h : ∃ c ∈ s.conversations, c.id = cid) :
    (∀ f : TxFaults,
        (doDeleteChatByID s f cid).2 = s ∨
        (doDeleteChatByID s f cid).2 = deletedByIdStore s cid)
    ∧ (∀ (f : TxFaults) (e : String),
        (doDeleteChatByID s f cid).1 = .error e →
        (doDeleteChatByID s f cid).2 = s)
    ∧ doDeleteChatByID s noFaults cid =
        (.ok ("Conversation with ID " ++ toString cid ++
          " deleted successfully"), deletedByIdStore s cid) := by
  have hne : (s.conversations.filter (fun c => c.id = cid)).length ≠ 0 := by
    obtain ⟨c, hc, hid⟩ := h
    have : c ∈ s.conversations.filter (fun c => c.id = cid) := by
      simp [List.mem_filter, hc, hid]
    intro hlen
    rw [List.length_eq_zero] at hlen
    simp [hlen] at this
  refine ⟨?_, ?_, ?_⟩
  · intro f
    obtain ⟨b1, b2, b3, b4, b5⟩ := f
    cases b1 <;> cases b2 <;> cases b3 <;> cases b4 <;> cases b5 <;>
      simp [doDeleteChatByID, hne]
  · intro f e
    obtain ⟨b1, b2, b3, b4, b5⟩ := f
    cases b1 <;> cases b2 <;> cases b3 <;> cases b4 <;> cases b5 <;>
      simp [doDeleteChatByID, hne]
  · simp [doDeleteChatByID, noFaults, hne]

/-- C2 witness: a two-conversation store; deleting conversation 1 removes
its row and messages and keeps those of conversation 2. -/
theorem C2_delete_chat_atomic_witness :
    doDeleteChatByID
        ⟨[⟨1, "m", "n1", "u", 0⟩, ⟨2, "m", "n2", "u", 0⟩],
         [⟨1, 1, "user", "hi", "10"⟩, ⟨2, 2, "user", "yo", "11"⟩], 3⟩
        noFaults 1 =
      (.ok "Conversation with ID 1 deleted successfully",
        ⟨[⟨2, "m", "n2", "u", 0⟩], [⟨2, 2, "user", "yo", "11"⟩], 3⟩) := by
  have := (C2_delete_chat_atomic
      ⟨[⟨1, "m", "n1", "u", 0⟩, ⟨2, "m", "n2", "u", 0⟩],
       [⟨1, 1, "user", "hi", "10"⟩, ⟨2, 2, "user", "yo", "11"⟩], 3⟩ 1
      ⟨⟨1, "m", "n1", "u", 0⟩, by simp, rfl⟩).2.2
  simpa [deletedByIdStore] using this

/-- C8: Deleting a conversation id with no matching row yields a
not-found error with the store unchanged, and deleting all conversations of
an owner who has none yields a not-found error with the store unchanged
(no silent success). -/
theorem C8_delete_missing_not_found
    (s : Store) (cid : Int) (uid : String) :
    (convExists s cid = false →
      doDeleteChatByID s noFaults cid =
        (.error ("conversation with id " ++ toString cid ++ " not found"),
          s))
    ∧ (s.conversations.filter (fun c => c.userID = uid) = [] →
      doDeleteAllChatByUserID s noFaults uid =
        (.error ("no conversations found for user_id " ++ uid), s)) := by
  constructor
  · intro h
    have hnil : s.conversations.filter (fun c => c.id = cid) = [] := by
      rw [List.filter_eq_nil_iff]
      intro c hc
      simp only [convExists, List.any_eq_false] at h
      simpa using h c hc
    simp [doDeleteChatByID, noFaults, hnil]
  · intro h
    simp [doDeleteAllChatByUserID, noFaults, h]

/-- C8 witness: empty store, missing id 9 and owner "nobody". -/
theorem C8_delete_missing_not_found_witness :
    doDeleteChatByID ⟨[], [], 1⟩ noFaults 9 =
        (.error "conversation with id 9 not found", ⟨[], [], 1⟩)
    ∧ doDeleteAllChatByUserID ⟨[], [], 1⟩ noFaults "nobody" =
        (.error "no conversations found for user_id nobody", ⟨[], [], 1⟩) :=
  ⟨by simpa using
      (C8_delete_missing_not_found ⟨[], [], 1⟩ 9 "nobody").1 (by decide),
   by simpa using
      (C8_delete_missing_not_found ⟨[], [], 1⟩ 9 "nobody").2 (by decide)⟩

namespace BloomBe

theorem maxIdFrom_ge_acc :
    ∀ (l : List Conversation) (acc : Int), acc ≤ maxIdFrom acc l := by
  intro l
  induction l with
  | nil => intro acc; simp [maxIdFrom]
  | cons c cs ih =>
    intro acc
    simp only [maxIdFrom]
    exact le_trans (le_max_left acc c.id) (ih (max acc c.id))

theorem maxIdFrom_ge_mem :
    ∀ (l : List Conversation) (acc : Int) (c : Conversation),
      c ∈ l → c.id ≤ maxIdFrom acc l := by
  intro l
  induction l with
  | nil => intro acc c hc; simp at hc
  | cons d ds ih =>
    intro acc c hc
    simp only [maxIdFrom]
    rcases List.mem_cons.mp hc with rfl | hc
    · exact le_trans (le_max_right acc c.id) (maxIdFrom_ge_acc ds _)
    · exact ih _ c hc

theorem maxIdFrom_eq_acc_or_mem :
    ∀ (l : List Conversation) (acc : Int),
      maxIdFrom acc l = acc ∨ ∃ c ∈ l, maxIdFrom acc l = c.id := by
  intro l
  induction l with
  | nil => intro acc; left; rfl
  | cons d ds ih =>
    intro acc
    simp only [maxIdFrom]
    rcases ih (max acc d.id) with h | ⟨c, hc, hm⟩
    · rcases max_choice acc d.id with hm | hm
      · left; rw [h, hm]
      · right; exact ⟨d, by simp, by rw [h, hm]⟩
    · right; exact ⟨c, by simp [hc], hm⟩

end BloomBe

/-- C9: When a send-chat request omits `conversation_id`, the handler
synthesizes `getMostRecentConversationID() + 1` as a string;
`getMostRecentConversationID` is the largest stored conversation id, or 0
when no conversations exist, so on an empty store the synthesized id is
`"1"`. -/
theorem C9_synthesized_id_is_max_plus_one (s : Store) (reqCid : String) :
    (reqCid = "" →
      resolveConversationID s reqCid =
        toString (getMostRecentConversationID s + 1))
    ∧ (s.conversations = [] → getMostRecentConversationID s = 0)
    ∧ (∀ c ∈ s.conversations, c.id ≤ getMostRecentConversationID s)
    ∧ (s.conversations ≠ [] →
        ∃ c ∈ s.conversations, getMostRecentConversationID s = c.id)
    ∧ (s.conversations = [] → resolveConversationID s "" = "1") := by
  refine ⟨?_, ?_, ?_, ?_, ?_⟩
  · intro h; subst h; rfl
  · intro h; simp [getMostRecentConversationID, h]
  · intro c hc
    cases hs : s.conversations with
    | nil => rw [hs] at hc; simp at hc
    | cons d ds =>
      rw [hs] at hc
      simp only [getMostRecentConversationID, hs]
      rcases List.mem_cons.mp hc with rfl | hc
      · exact maxIdFrom_ge_acc ds c.id
      · exact maxIdFrom_ge_mem ds d.id c hc
  · intro h
    cases hs : s.conversations with
    | nil => exact absurd hs h
    | cons d ds =>
      simp only [getMostRecentConversationID, hs]
      rcases maxIdFrom_eq_acc_or_mem ds d.id with hm | ⟨c, hc, hm⟩
      · exact ⟨d, by simp [hs], hm⟩
      · exact ⟨c, by simp [hs, hc], hm⟩
  · intro h
    simp only [resolveConversationID, getMostRecentConversationID, h,
      if_pos]
    rfl

/-- C9 witness: empty store synthesizes "1"; a store with ids 4, 9, 2
synthesizes the successor of the maximum. -/
theorem C9_synthesized_id_is_max_plus_one_witness :
    resolveConversationID ⟨[], [], 1⟩ "" = "1"
    ∧ resolveConversationID
        ⟨[⟨4, "m", "n", "u", 0⟩, ⟨9, "m", "n", "u", 0⟩,
          ⟨2, "m", "n", "u", 0⟩], [], 1⟩ "" =
      toString (getMostRecentConversationID
        ⟨[⟨4, "m", "n", "u", 0⟩, ⟨9, "m", "n", "u", 0⟩,
          ⟨2, "m", "n", "u", 0⟩], [], 1⟩ + 1) :=
  ⟨(C9_synthesized_id_is_max_plus_one ⟨[], [], 1⟩ "").2.2.2.2 rfl,
   (C9_synthesized_id_is_max_plus_one
      ⟨[⟨4, "m", "n", "u", 0⟩, ⟨9, "m", "n", "u", 0⟩,
        ⟨2, "m", "n", "u", 0⟩], [], 1⟩ "").1 rfl⟩

/-- C4: For every store (hence every insertion order of the messages
of a conversation), `doGetAllMsgsByID` returns exactly those messages, in
non-decreasing timestamp order. -/
theorem C4_messages_listed_sorted (s : Store) (cid : Int) :
    List.Sorted msgLe (doGetAllMsgsByID s cid)
    ∧ (doGetAllMsgsByID s cid).Perm
        (s.messages.filter (fun m => m.conversationID = cid)) :=
  ⟨List.sorted_insertionSort msgLe _, List.perm_insertionSort msgLe _⟩

namespace BloomBe

/-- In a sequential run (`interfere = none`), `ensureConversation` always
succeeds: it returns the store unchanged when the row exists and the store
with the one default-named row appended otherwise. -/
theorem ensureConversation_none_ok (s : Store) (cid : Int)
    (model uid : String) (now : Int) :
    ensureConversation s none cid model uid now =
      .ok (cid, if convExists s cid then s
                else ensuredStore s cid model uid now) := by
  by_cases h : convExists s cid <;>
    simp [ensureConversation, ensuredStore, h]

end BloomBe

/-- C7 counterexample: A decoded upstream body whose `choices` list is
empty does not produce an error value: `Choices[0]` is accessed on the
absent element and the run ends in a runtime panic (index out of range). -/
theorem C7_empty_choices_panic_counterexample :
    (doCompletions ⟨[], [], 1⟩
        ⟨false, .decoded ⟨100, []⟩, false, .transportFailure, false⟩
        "user" "hi" "u" 1 "m" 50).1 =
      .panicked "runtime error: index out of range" := by
  decide

/-- C7 amended: Transport failures and JSON decode failures of the
upstream call make the completion step return an error value; but a decoded
body whose `choices` list is empty leads to an out-of-bounds access of the
first choice — a runtime panic, not an error return (the response status is
never checked, so a non-2xx body surfaces only this way). -/
theorem C7_upstream_failure_amended
    (s : Store) (o : CompletionsOracle) (role content uid model : String)
    (cid now : Int) (r : AkashCompletionResponse)
    (h : o.failUserWrite = false) :
    ((o.upstreamMain = .transportFailure ∨ o.upstreamMain = .decodeFailure) →
      ∃ e, (doCompletions s o role content uid cid model now).1 = .failed e)
    ∧ (o.upstreamMain = .decoded r → r.choices = [] →
      (doCompletions s o role content uid cid model now).1 =
        .panicked "runtime error: index out of range") := by
  constructor
  · rintro (hm | hm)
    · exact ⟨"Error making API request",
        by simp [doCompletions, ensureConversation_none_ok, h, hm]⟩
    · exact ⟨"Error unmarshaling JSON",
        by simp [doCompletions, ensureConversation_none_ok, h, hm]⟩
  · intro hm hch
    simp [doCompletions, ensureConversation_none_ok, h, hm, hch]

namespace BloomBe

/-- The only effect traces a `doCompletions` run can produce, in order:
each successful stage appends its event, so every trace is a prefix of the
full five-event run. -/
theorem doCompletions_trace_shapes (s : Store) (o : CompletionsOracle)
    (role content uid model : String) (cid now : Int) :
    (doCompletions s o role content uid cid model now).2.2 = [] ∨
    (doCompletions s o role content uid cid model now).2.2 =
      [Event.writeUser, Event.upstreamCall] ∨
    (doCompletions s o role content uid cid model now).2.2 =
      [Event.writeUser, Event.upstreamCall, Event.writeAssistant] ∨
    (doCompletions s o role content uid cid model now).2.2 =
      [Event.writeUser, Event.upstreamCall, Event.writeAssistant,
        Event.upstreamSummarizeCall] ∨
    (doCompletions s o role content uid cid model now).2.2 =
      [Event.writeUser, Event.upstreamCall, Event.writeAssistant,
        Event.upstreamSummarizeCall, Event.nameWrite] := by
  obtain ⟨f1, um, f2, us, f3⟩ := o
  rcases hE : ensureConversation s none cid model uid now with e | ⟨i, s1⟩
  · left; simp [doCompletions, hE]
  · cases f1 with
    | true => left; simp [doCompletions, hE]
    | false =>
      cases um with
      | transportFailure => right; left; simp [doCompletions, hE]
      | decodeFailure => right; left; simp [doCompletions, hE]
      | decoded r =>
        cases hr : r.choices with
        | nil => right; left; simp [doCompletions, hE, hr]
        | cons ch chs =>
          cases f2 with
          | true => right; left; simp [doCompletions, hE, hr]
          | false =>
            by_cases hlen : (getOldMessages s1 cid).length = 2
            · cases us with
              | transportFailure =>
                right; right; right; left
                simp [doCompletions, hE, hr, hlen]
              | decodeFailure =>
                right; right; right; left
                simp [doCompletions, hE, hr, hlen]
              | decoded r2 =>
                cases hr2 : r2.choices with
                | nil =>
                  right; right; right; left
                  simp [doCompletions, hE, hr, hlen, hr2]
                | cons ch2 chs2 =>
                  cases f3 with
                  | true =>
                    right; right; right; left
                    simp [doCompletions, hE, hr, hlen, hr2]
                  | false =>
                    right; right; right; right
                    simp [doCompletions, hE, hr, hlen, hr2]
            · right; right; left
              simp [doCompletions, hE, hr, hlen]

end BloomBe

/-- C5: In every `doCompletions` run the user turn is written to the
message store before any upstream call: if the store write fails, the
request fails and no upstream call is issued; whenever an upstream call
appears in the trace, the user-turn write immediately precedes it; and if
the upstream call fails, the message table holds exactly the old rows plus
the user turn — persisted, with no assistant reply. -/
theorem C5_user_turn_persisted_before_upstream
    (s : Store) (o : CompletionsOracle) (role content uid model : String)
    (cid now : Int) :
    (o.failUserWrite = true →
      (∃ e, (doCompletions s o role content uid cid model now).1 =
        .failed e)
      ∧ Event.upstreamCall ∉
          (doCompletions s o role content uid cid model now).2.2)
    ∧ (Event.upstreamCall ∈
        (doCompletions s o role content uid cid model now).2.2 →
      ((doCompletions s o role content uid cid model now).2.2).take 2 =
        [Event.writeUser, Event.upstreamCall])
    ∧ (o.failUserWrite = false →
      (o.upstreamMain = .transportFailure ∨
        o.upstreamMain = .decodeFailure) →
      (∃ e, (doCompletions s o role content uid cid model now).1 =
        .failed e)
      ∧ (doCompletions s o role content uid cid model now).2.1.messages =
          s.messages ++
            [⟨s.nextMsgId, cid, role, content, toString now⟩]) := by
  refine ⟨?_, ?_, ?_⟩
  · intro h1
    rcases hE : ensureConversation s none cid model uid now with e | ⟨i, s1⟩
    · exact ⟨⟨e, by simp [doCompletions, hE]⟩, by simp [doCompletions, hE]⟩
    · exact ⟨⟨"Error inserting message into DB",
          by simp [doCompletions, hE, h1]⟩,
        by simp [doCompletions, hE, h1]⟩
  · intro hmem
    rcases doCompletions_trace_shapes s o role content uid model cid now
      with h | h | h | h | h <;> rw [h] at hmem ⊢ <;> simp_all
  · intro h1 hm
    by_cases hex : convExists s cid
    · rcases hm with hm | hm
      · exact ⟨⟨"Error making API request",
            by simp [doCompletions, ensureConversation_none_ok, hex, h1,
              hm]⟩,
          by simp [doCompletions, ensureConversation_none_ok, hex, h1, hm,
            setMessages]⟩
      · exact ⟨⟨"Error unmarshaling JSON",
            by simp [doCompletions, ensureConversation_none_ok, hex, h1,
              hm]⟩,
          by simp [doCompletions, ensureConversation_none_ok, hex, h1, hm,
            setMessages]⟩
    · rcases hm with hm | hm
      · exact ⟨⟨"Error making API request",
            by simp [doCompletions, ensureConversation_none_ok, hex, h1,
              hm]⟩,
          by simp [doCompletions, ensureConversation_none_ok, hex, h1, hm,
            setMessages, ensuredStore, insertConv]⟩
      · exact ⟨⟨"Error unmarshaling JSON",
            by simp [doCompletions, ensureConversation_none_ok, hex, h1,
              hm]⟩,
          by simp [doCompletions, ensureConversation_none_ok, hex, h1, hm,
            setMessages, ensuredStore, insertConv]⟩

/-- C5 witness: with the user-turn store write failing, the request fails
and the trace contains no upstream call. -/
theorem C5_user_turn_persisted_before_upstream_witness :
    (∃ e, (doCompletions ⟨[], [], 1⟩
        ⟨true, .transportFailure, false, .transportFailure, false⟩
        "user" "hi" "u" 1 "m" 50).1 = .failed e)
    ∧ Event.upstreamCall ∉ (doCompletions ⟨[], [], 1⟩
        ⟨true, .transportFailure, false, .transportFailure, false⟩
        "user" "hi" "u" 1 "m" 50).2.2 :=
  (C5_user_turn_persisted_before_upstream ⟨[], [], 1⟩
      ⟨true, .transportFailure, false, .transportFailure, false⟩
      "user" "hi" "u" "m" 1 50).1 rfl

namespace BloomBe

theorem find?_last_of_front_false {p : Conversation → Bool}
    (l : List Conversation) (x : Conversation)
    (hl : ∀ c ∈ l, p c = false) (hx : p x = true) :
    (l ++ [x]).find? p = some x := by
  induction l with
  | nil => simpa using List.find?_cons_of_pos [] hx
  | cons a as ih =>
    rw [List.cons_append,
      List.find?_cons_of_neg _ (by simp [hl a (by simp)])]
    exact ih (fun c hc => hl c (by simp [hc]))

/-- The id of a row is unchanged by the name-update function of `insertName`. -/
theorem updateName_id (cid : Int) (nm : String) (c : Conversation) :
    (if c.id = cid then { c with conversationName := nm } else c).id =
      c.id := by
  by_cases h : c.id = cid <;> simp [h]

/-- The `convName` after appending a fresh row: the name of the appended row. -/
theorem convName_append_fresh (s3 : Store) (base : List Conversation)
    (x : Conversation) (cid : Int)
    (hconvs : s3.conversations = base ++ [x])
    (hbase : ∀ c ∈ base, c.id ≠ cid) (hx : x.id = cid) :
    convName s3 cid = some x.conversationName := by
  simp only [convName, hconvs]
  rw [find?_last_of_front_false base x
    (fun c hc => by simpa using hbase c hc) (by simp [hx])]
  rfl

/-- The `convName` after `insertName` on a store whose only row with id `cid`
is a freshly appended one: the new name. -/
theorem convName_insertName_append (s3 : Store) (base : List Conversation)
    (x : Conversation) (cid : Int) (nm : String)
    (hconvs : s3.conversations = base ++ [x])
    (hbase : ∀ c ∈ base, c.id ≠ cid) (hx : x.id = cid) :
    convName (insertName s3 cid nm).2 cid = some nm := by
  have hex : convExists s3 cid = true := by
    simp [convExists, hconvs]
    exact Or.inr hx
  simp only [insertName, hex, if_true, convName, hconvs, List.map_append,
    List.map_cons, List.map_nil]
  rw [find?_last_of_front_false (p := fun c => c.id = cid)
    (base.map (fun c => if c.id = cid then { c with conversationName := nm }
      else c))
    (if x.id = cid then { x with conversationName := nm } else x)
    (fun c hc => by
      rcases List.mem_map.mp hc with ⟨b, hb, rfl⟩
      simp [updateName_id, hbase b hb])
    (by simp [updateName_id, hx])]
  simp [hx]

end BloomBe

/-- C3: On a fresh conversation, in a run where every database write
succeeds and both upstream calls decode with a non-empty choices list, the
extra summarization call fires exactly when the in-memory history length
after appending the user turn equals 3 (never at any other length); when it
fires, the conversation name becomes the reply of the summarizer, and before
that point it is still the default "New Conversation". -/
theorem C3_autoname_fires_exactly_at_three
    (s : Store) (o : CompletionsOracle) (role content uid model : String)
    (cid now : Int) (r r2 : AkashCompletionResponse)
    (ch ch2 : ChoiceMessage) (chs chs2 : List ChoiceMessage)
    (hfresh : convExists s cid = false)
    (h1 : o.failUserWrite = false)
    (h2 : o.upstreamMain = .decoded r) (hr : r.choices = ch :: chs)
    (h3 : o.failAssistantWrite = false)
    (h4 : o.upstreamSummarize = .decoded r2) (hr2 : r2.choices = ch2 :: chs2)
    (h5 : o.failNameWrite = false) :
    (Event.upstreamSummarizeCall ∈
        (doCompletions s o role content uid cid model now).2.2 ↔
      (s.messages.filter (fun m => m.conversationID = cid)).length + 1 = 3)
    ∧ ((s.messages.filter (fun m => m.conversationID = cid)).length + 1 =
        3 →
      convName (doCompletions s o role content uid cid model now).2.1 cid =
        some ch2.content)
    ∧ ((s.messages.filter (fun m => m.conversationID = cid)).length + 1 ≠
        3 →
      convName (doCompletions s o role content uid cid model now).2.1 cid =
        some "New Conversation") := by
  have hE : ensureConversation s none cid model uid now =
      .ok (cid, ensuredStore s cid model uid now) := by
    simp [ensureConversation_none_ok, hfresh]
  have hbase : ∀ c ∈ s.conversations, c.id ≠ cid := by
    intro c hc
    simp only [convExists, List.any_eq_false] at hfresh
    simpa using hfresh c hc
  have hlen : (getOldMessages (ensuredStore s cid model uid now) cid).length
      = (s.messages.filter (fun m => m.conversationID = cid)).length := by
    simp [getOldMessages, doGetAllMsgsByID, ensuredStore, insertConv,
      List.length_insertionSort]
  by_cases hn :
      (s.messages.filter (fun m => m.conversationID = cid)).length + 1 = 3
  · have hn2 :
        (getOldMessages (ensuredStore s cid model uid now) cid).length = 2 :=
      by omega
    have hc : (getOldMessages (ensuredStore s cid model uid now) cid ++
        [(role, content)]).length = 3 := by
      simp only [List.length_append, List.length_cons, List.length_nil,
        hlen]
      omega
    refine ⟨iff_of_true ?_ hn, fun _ => ?_, fun hcon => absurd hn hcon⟩
    · simp [doCompletions, hE, h1, h2, hr, h3, hn2, h4, hr2, h5]
    · simp only [doCompletions, hE, h1, h2, hr, h3, h4, hr2, h5]
      rw [if_pos hc]
      exact convName_insertName_append _ s.conversations
        ⟨cid, model, "New Conversation", uid, now⟩ cid ch2.content rfl
        hbase rfl
  · have hn2 :
        ¬ (getOldMessages (ensuredStore s cid model uid now) cid).length = 2
      := by omega
    have hc : ¬ (getOldMessages (ensuredStore s cid model uid now) cid ++
        [(role, content)]).length = 3 := by
      simp only [List.length_append, List.length_cons, List.length_nil,
        hlen]
      omega
    refine ⟨iff_of_false ?_ hn, fun hcon => absurd hcon hn, fun _ => ?_⟩
    · simp [doCompletions, hE, h1, h2, hr, h3, hn2]
    · simp only [doCompletions, hE, h1, h2, hr, h3, h4, hr2, h5]
      rw [if_neg hc]
      exact convName_append_fresh _ s.conversations
        ⟨cid, model, "New Conversation", uid, now⟩ cid rfl hbase rfl

/-- C3 witness: on a fresh conversation with 2 stored messages, the second
exchange triggers the summarizer; the theorem is applied at that concrete
input. -/
theorem C3_autoname_fires_exactly_at_three_witness :
    Event.upstreamSummarizeCall ∈
      (doCompletions
        ⟨[], [⟨1, 1, "user", "hi", "50"⟩,
              ⟨2, 1, "assistant", "hello", "100"⟩], 3⟩
        ⟨false, .decoded ⟨100, [⟨"assistant", "hello2"⟩]⟩, false,
          .decoded ⟨200, [⟨"assistant", "Chat about hi"⟩]⟩, false⟩
        "user" "more" "u" 1 "m" 150).2.2 ↔
    ((⟨[], [⟨1, 1, "user", "hi", "50"⟩,
        ⟨2, 1, "assistant", "hello", "100"⟩], 3⟩ : Store).messages.filter
          (fun m => m.conversationID = 1)).length + 1 = 3 :=
  (C3_autoname_fires_exactly_at_three
    ⟨[], [⟨1, 1, "user", "hi", "50"⟩, ⟨2, 1, "assistant", "hello", "100"⟩],
      3⟩
    ⟨false, .decoded ⟨100, [⟨"assistant", "hello2"⟩]⟩, false,
      .decoded ⟨200, [⟨"assistant", "Chat about hi"⟩]⟩, false⟩
    "user" "more" "u" "m" 1 150 ⟨100, [⟨"assistant", "hello2"⟩]⟩
    ⟨200, [⟨"assistant", "Chat about hi"⟩]⟩ ⟨"assistant", "hello2"⟩
    ⟨"assistant", "Chat about hi"⟩ [] [] rfl rfl rfl rfl rfl rfl rfl
    rfl).1

/-- C7 amended witness: a transport failure on an empty store yields an
error value. -/
theorem C7_upstream_failure_amended_witness :
    ∃ e, (doCompletions ⟨[], [], 1⟩
        ⟨false, .transportFailure, false, .transportFailure, false⟩
        "user" "hi" "u" 1 "m" 50).1 = .failed e :=
  (C7_upstream_failure_amended ⟨[], [], 1⟩
      ⟨false, .transportFailure, false, .transportFailure, false⟩
      "user" "hi" "u" "m" 1 50 ⟨0, []⟩ rfl).1 (Or.inl rfl)
